import Mathlib

/-!
Verification of the pampi clustering pipeline (grayfall/biomisc).

The development shallowly embeds the cluster-report parser, the cd-hit
invocation wrappers (`cdhit`, `cdpick`) from `src/pipeline/pampi/picking.py`,
the cluster-membership file format, the pipeline compiler, and the filtering
stage from `src/pampi.py`.  Python strings are modelled as `List Char`,
a file handle as the list of its lines, exceptions as an explicit error type
carried in `Except`, and the filesystem / process side effects of `cdpick`
as an explicit event trace driven by an environment record describing the
outcomes of the external steps.
-/

/-- A Python string (one line of text). -/
abbrev Line := List Char

/-- A sequence identifier. -/
abbrev Ident := List Char

/-- A filesystem path. -/
abbrev FsPath := List Char

/-- Python `str.strip`: drop whitespace from both ends. -/
def pyStrip (l : Line) : Line :=
  ((l.dropWhile Char.isWhitespace).reverse.dropWhile Char.isWhitespace).reverse

/-- Python `line.startswith('>')`. -/
def startsGt : Line → Bool
  | [] => false
  | c :: _ => c == '>'

/-- Does the text start with the literal `...`? -/
def hasDots : Line → Bool
  | '.' :: '.' :: '.' :: _ => true
  | _ => false

/-- Non-greedy capture for the regex `>(.+?)\.\.\.` after the `>` has been
consumed: take at least one character, stopping at the earliest `...`. -/
def midTill : Line → Option Ident
  | [] => none
  | c :: rest => if hasDots rest then some [c] else (midTill rest).map (c :: ·)

/-- First match of `re.compile('>(.+?)\.\.\.').findall` on a line
(`SEQID(line)` in picking.py): the leftmost `>` followed by a non-empty
capture and `...`, with the shortest capture. -/
def seqidFirst : Line → Option Ident
  | [] => none
  | c :: rest =>
    if c == '>' then
      match midTill rest with
      | some m => some m
      | none => seqidFirst rest
    else seqidFirst rest

/-- Python exception kinds that occur in the embedded code. -/
inductive Exc where
  | RuntimeError
  | FileNotFoundError
  | CalledProcessError
  | TypeError
  | IndexError
  | ValueError
  deriving DecidableEq, Repr

instance [DecidableEq ε] [DecidableEq α] : DecidableEq (Except ε α) := fun x y =>
  match x, y with
  | Except.ok a, Except.ok b =>
    if h : a = b then Decidable.isTrue (congrArg Except.ok h)
    else Decidable.isFalse (fun hh => h (Except.ok.inj hh))
  | Except.error a, Except.error b =>
    if h : a = b then Decidable.isTrue (congrArg Except.error h)
    else Decidable.isFalse (fun hh => h (Except.error.inj hh))
  | Except.ok _, Except.error _ => Decidable.isFalse (fun hh => Except.noConfusion hh)
  | Except.error _, Except.ok _ => Decidable.isFalse (fun hh => Except.noConfusion hh)

/-- Embeds `SEQID(line)[0]`: indexing an empty match list raises `IndexError`. -/
def seqidFirstE (l : Line) : Except Exc Ident :=
  match seqidFirst l with
  | some i => Except.ok i
  | none => Except.error Exc.IndexError

/-- Embeds `itertools.groupby` over a list with a Boolean key: maximal runs of
elements with the same key, each paired with the key value. -/
def pyGroupBy (key : α → Bool) : List α → List (Bool × List α)
  | [] => []
  | x :: xs =>
    match pyGroupBy key xs with
    | [] => [(key x, [x])]
    | (k, g) :: t =>
      if key x == k then (key x, x :: g) :: t else (key x, [x]) :: (k, g) :: t

/-- Sequence a fallible function over a list, stopping at the first raised
exception (a Python for-loop / comprehension over fallible calls). -/
def mapExc (f : α → Except Exc β) : List α → Except Exc (List β)
  | [] => Except.ok []
  | a :: rest =>
    match f a with
    | Except.error e => Except.error e
    | Except.ok b => (mapExc f rest).map (b :: ·)

/-- Embeds `transform_cluster` (picking.py lines 24-27):
`seqids = [SEQID(line)[0] for line in cluster]` followed by
`(seqids if len(seqids) > 1 else None) if drop_empty else seqids`.
An `IndexError` from a marker-less member line is reported in `Except`. -/
def transformClusterE (dropEmpty : Bool) (cluster : List Line) :
    Except Exc (Option (List Ident)) :=
  match mapExc seqidFirstE cluster with
  | Except.error e => Except.error e
  | Except.ok seqids =>
    Except.ok (if dropEmpty then (if seqids.length > 1 then some seqids else none)
               else some seqids)

/-- The strip/filter stage of `parse_cdhit_clusters`:
`map(str.strip)` then `filter(bool)`. -/
def strippedLines (handle : List Line) : List Line :=
  (handle.map pyStrip).filter (fun l => !l.isEmpty)

/-- The grouping stage of `parse_cdhit_clusters`: group stripped lines by
`startswith('>')`, keep groups whose key is `False`, take the lines. -/
def memberGroups (handle : List Line) : List (List Line) :=
  ((pyGroupBy startsGt (strippedLines handle)).filter (fun g => !g.1)).map (·.2)

/-- The stream of `transform_cluster` results produced by
`parse_cdhit_clusters` before the final `filter(bool)`. -/
def clusterStream (dropEmpty : Bool) (handle : List Line) :
    List (Except Exc (Option (List Ident))) :=
  (memberGroups handle).map (transformClusterE dropEmpty)

/-- Drain the transform stream, applying the trailing `filter(bool)` (which
drops `None` and empty lists); a raised exception aborts the iteration. -/
def collectClusters : List (Except Exc (Option (List Ident))) →
    Except Exc (List (List Ident))
  | [] => Except.ok []
  | Except.error e :: _ => Except.error e
  | Except.ok none :: rest => collectClusters rest
  | Except.ok (some c) :: rest =>
    if c.isEmpty then collectClusters rest
    else (collectClusters rest).map (c :: ·)

/-- Embeds `parse_cdhit_clusters` (picking.py lines 30-37) applied to the lines of
the report, fully drained (the Python generator is lazy; draining it is the
only way its callers use it). -/
def parse_cdhit_clusters (dropEmpty : Bool) (handle : List Line) :
    Except Exc (List (List Ident)) :=
  collectClusters (clusterStream dropEmpty handle)

/-- Modelled from the spec: `util.fallible(*kinds)` (module `pipeline/pampi/util`
is not under src/).  The spec's error-capture wrapper "translates a configured
set of exception kinds ... into an absent result (no record produced, rather
than a crash)"; all other exception kinds propagate uncaught. -/
def fallible (kinds : List Exc) (r : Except Exc α) : Except Exc (Option α) :=
  match r with
  | Except.ok a => Except.ok (some a)
  | Except.error e => if e ∈ kinds then Except.ok none else Except.error e

/-- Observable side effects of a clustering invocation or a release. -/
inductive Ev where
  | acquire (name : List Char)
  | release (name : List Char)
  | openRead (p : FsPath)
  | write (p : FsPath) (c : List Ident)
  | remove (p : FsPath)
  deriving DecidableEq, Repr

/-- Outcomes of the effectful steps a `cdpick` call performs, fixed up front
so the embedded code is a pure function of them: whether `tmpdir` exists,
whether `shutil.which` finds cd-hit-est-2d, the child process exit code, the
text of the `.clstr` report the tool writes, whether opening that report and
the two `os.remove` calls succeed, and the two `util.randname` draws. -/
structure PickEnv where
  tmpdirExists : Bool
  whichOk : Bool
  exitCode : Nat
  clusterLines : List Line
  openOk : Bool
  remove1Ok : Bool
  remove2Ok : Bool
  rand1 : FsPath
  rand2 : FsPath
  deriving DecidableEq, Repr

/-- Handle over one sample, a `data.SampleReads`-like input handle: a name and one or two files. -/
structure SampleReads where
  name : List Char
  files : List FsPath
  deriving DecidableEq, Repr

/-- Record built by `data.SampleClusters(name, clusters, delete)` as returned by
`cdpick`. -/
structure SampleClusters where
  name : List Char
  clusters : FsPath
  delete : Bool
  deriving DecidableEq, Repr

/-- The `'{}.clstr'.format(output)` suffix. -/
def clstrSuffix : FsPath := ".clstr".toList

/-- The body of `cdhit` (picking.py lines 43-78) before its `fallible`
decorator: `RuntimeError` when the executable is missing or the process
exits non-zero, otherwise the pair `(output, output + '.clstr')`. -/
def cdhitRaw (env : PickEnv) (output : FsPath) : Except Exc (FsPath × FsPath) :=
  if env.whichOk = false then Except.error Exc.RuntimeError
  else if env.exitCode ≠ 0 then Except.error Exc.RuntimeError
  else Except.ok (output, output ++ clstrSuffix)

/-- Embeds `cdhit` as decorated: `@util.fallible(RuntimeError, sp.CalledProcessError)`. -/
def cdhit (env : PickEnv) (output : FsPath) : Except Exc (Option (FsPath × FsPath)) :=
  fallible [Exc.RuntimeError, Exc.CalledProcessError] (cdhitRaw env output)

/-- The write loop of `cdpick`: drain the lazy parse stream, printing each
yielded cluster to the output file; an exception raised by the stream aborts
the loop after the preceding clusters were written. -/
def writeClusters (out : FsPath) : List (Except Exc (Option (List Ident))) →
    List Ev × Option Exc
  | [] => ([], none)
  | Except.error e :: _ => ([], some e)
  | Except.ok none :: rest => writeClusters out rest
  | Except.ok (some c) :: rest =>
    if c.isEmpty then writeClusters out rest
    else
      let r := writeClusters out rest
      (Ev.write out c :: r.1, r.2)

/-- The part of `cdpick` inside `with input:` (picking.py lines 89-104):
unpack `cdhit`'s result (a `None` from its own `fallible` wrapper raises
`TypeError` at the tuple unpacking), open the raw report, write the parsed
clusters to `output_`, delete the two temporary cd-hit files, and build the
returned `SampleClusters`. -/
def cdpickBody (env : PickEnv) (input : SampleReads) (output : Option FsPath)
    (outputR tempout : FsPath) (dropEmpty : Bool) :
    Except Exc SampleClusters × List Ev :=
  match cdhit env tempout with
  | Except.error e => (Except.error e, [])
  | Except.ok none => (Except.error Exc.TypeError, [])
  | Except.ok (some (seqs, clusterfile)) =>
    if env.openOk = false then (Except.error Exc.FileNotFoundError, [])
    else
      match writeClusters outputR (clusterStream dropEmpty env.clusterLines) with
      | (wEvs, some e) => (Except.error e, Ev.openRead clusterfile :: wEvs)
      | (wEvs, none) =>
        if env.remove1Ok = false then
          (Except.error Exc.FileNotFoundError, Ev.openRead clusterfile :: wEvs)
        else if env.remove2Ok = false then
          (Except.error Exc.FileNotFoundError,
           (Ev.openRead clusterfile :: wEvs) ++ [Ev.remove seqs])
        else
          (Except.ok ⟨input.name, outputR, output.isNone⟩,
           (Ev.openRead clusterfile :: wEvs) ++
             [Ev.remove seqs, Ev.remove clusterfile])

/-- Embeds `cdpick` before its decorator: the `tmpdir` existence check raises
`ValueError`; then `output_` and `cdhit_tempout` are drawn, and the body runs
under `with input:`, whose scoped acquisition releases `input` on every exit
path out of the block. -/
def cdpickRaw (env : PickEnv) (input : SampleReads) (output : Option FsPath)
    (dropEmpty : Bool) : Except Exc SampleClusters × List Ev :=
  if env.tmpdirExists = false then (Except.error Exc.ValueError, [])
  else
    ((cdpickBody env input output (output.getD env.rand1) env.rand2 dropEmpty).1,
     Ev.acquire input.name ::
       ((cdpickBody env input output (output.getD env.rand1) env.rand2 dropEmpty).2 ++
        [Ev.release input.name]))

/-- Embeds `cdpick` as decorated: `@util.fallible(RuntimeError, FileNotFoundError)`. -/
def cdpick (env : PickEnv) (input : SampleReads) (output : Option FsPath)
    (dropEmpty : Bool) : Except Exc (Option SampleClusters) × List Ev :=
  (fallible [Exc.RuntimeError, Exc.FileNotFoundError]
     (cdpickRaw env input output dropEmpty).1,
   (cdpickRaw env input output dropEmpty).2)

/-- Modelled from the spec: `cdpick_multiple` (module `pipeline/pampi/pick`
is not under src/).  The batch clustering caller maps `cdpick` over the
samples of the collection (no per-sample output path) and collects the
present records, skipping absent results; an exception raised by any
per-sample call aborts the batch. -/
def cdpick_multiple (inputs : List (PickEnv × SampleReads)) (dropEmpty : Bool) :
    Except Exc (List SampleClusters) :=
  match mapExc (fun pe => (cdpick pe.1 pe.2 none dropEmpty).1) inputs with
  | Except.error e => Except.error e
  | Except.ok opts => Except.ok (opts.filterMap id)

/-- Python `'\t'.join(cluster)` as written by the `cdpick` output loop
(picking.py line 96), generalized over the separator. -/
def joinSep (sep : Char) : List (List Char) → List Char
  | [] => []
  | [x] => x
  | x :: y :: rest => x ++ sep :: joinSep sep (y :: rest)

/-- Content of the cluster-membership file `cdpick` writes: one cluster per
line, identifiers tab-separated, `print` appending a newline to each line. -/
def renderClustersFile (clusters : List (List Ident)) : List Char :=
  (clusters.map (fun c => joinSep '\t' c ++ ['\n'])).flatten

/-- Python `str.split(sep)` for a one-character separator: never empty,
keeps empty fields. -/
def splitOnChar (sep : Char) : List Char → List (List Char)
  | [] => [[]]
  | c :: rest =>
    match splitOnChar sep rest with
    | [] => [[]]
    | g :: gs => if c = sep then [] :: g :: gs else (c :: g) :: gs

/-- Python `str.splitlines` for newline-only text: split on the newline
character and drop the one empty field a trailing newline leaves behind. -/
def pySplitlines (content : List Char) : List Line :=
  if content.isEmpty then []
  else
    let gs := splitOnChar '\n' content
    if gs.getLast? = some [] then gs.dropLast else gs

/-- Modelled from the spec: the cluster-membership reader (the `data` module
holding `SampleClusters.parse` is not under src/).  Re-parsing treats each
line of the file as one cluster of tab-separated identifiers. -/
def parseClustersFile (content : List Char) : List (List Ident) :=
  (pySplitlines content).map (splitOnChar '\t')

/-- The eight representation types of `pampi.py` / `pipeline.pampi.data`. -/
inductive RepType where
  | sampleClusters
  | multipleClusters
  | sampleFasta
  | multipleFasta
  | sampleFastq
  | multipleFastq
  | samplePairedFastq
  | multiplePairedFastq
  deriving DecidableEq, Repr

/-- Modelled from the spec: `core.Map` (module `pipeline/core` is not under
src/) — an alternative, "a pair (declared input type, declared output type)
plus an opaque transformation function". -/
structure RMap (τ : Type) (C : Type) where
  inT : τ
  outT : τ
  fn : C → C

/-- Modelled from the spec: `core.Router` — "a named unit owning a set of
alternatives". -/
structure Router (τ : Type) (C : Type) where
  name : List Char
  maps : List (RMap τ C)

/-- Assembly-time pipeline errors; `typeMismatch` names the offending stage,
the carried representation type, and the set of types the stage accepts. -/
inductive PError (τ : Type) where
  | typeMismatch (stage : List Char) (cur : τ) (accepted : List τ)
  deriving DecidableEq

/-- Modelled from the spec: `core.pcompile` (module `pipeline/core` is not
under src/).  Walk the stage list once carrying a current type; at each stage
take the alternative whose declared input type equals the current type, or
fail with `TypeMismatch`; the matched output type is carried on.  The result
is the final type and the composition of the matched transformation
functions in stage order. -/
def pcompile [DecidableEq τ] : List (Router τ C) → τ →
    Except (PError τ) (τ × (C → C))
  | [], t => Except.ok (t, id)
  | r :: rs, t =>
    match r.maps.find? (fun m => m.inT == t) with
    | none => Except.error (PError.typeMismatch r.name t (r.maps.map (·.inT)))
    | some m => (pcompile rs m.outT).map (fun p => (p.1, p.2 ∘ m.fn))

/-- The representation type carried to stage `i` of the walk, defined when
every earlier stage has a matching alternative. -/
def carriedAt [DecidableEq τ] : List (Router τ C) → τ → Nat → Option τ
  | _, t, 0 => some t
  | [], _, _ + 1 => none
  | r :: rs, t, i + 1 =>
    match r.maps.find? (fun m => m.inT == t) with
    | none => none
    | some m => carriedAt rs m.outT i

/-- Replace every transformation function of a stage by a fixed one, keeping
names and declared types. -/
def withFns (f0 : C → C) (r : Router τ C) : Router τ C :=
  ⟨r.name, r.maps.map (fun m => ⟨m.inT, m.outT, f0⟩)⟩

/-- Modelled from the spec: a Sample Resource (the `data` module is not under
src/) — "name, files, owns_files"; `records` stands for the truthiness of
the records its `parse()` yields from the backing files. -/
structure PSample where
  name : List Char
  files : List FsPath
  records : List Bool
  owns : Bool
  deriving DecidableEq, Repr

/-- Modelled from the spec: releasing a Sample Resource deletes its backing
files when it owns them and leaves them untouched otherwise. -/
def releaseEvs (s : PSample) : List Ev :=
  if s.owns then s.files.map Ev.remove else []

/-- Python `sum(map(bool, sample.parse()))` from `sample_filter`. -/
def truthyCount (s : PSample) : Nat := s.records.countP (fun b => b = true)

/-- Embeds `size_filt` from the FILTER command (pampi.py lines 137-151):
keep a sample when its truthy-record count reaches `nseq`, otherwise release
it immediately and drop it; returns the kept samples in order together with
the release side effects in traversal order. -/
def size_filt (nseq : Nat) : List PSample → List PSample × List Ev
  | [] => ([], [])
  | s :: rest =>
    let r := size_filt nseq rest
    if nseq ≤ truthyCount s then (s :: r.1, r.2)
    else (r.1, releaseEvs s ++ r.2)

/-- One row of the parsed input table: a name, 1-2 file paths, and the
truthiness of the records backing those files. -/
structure Row where
  name : List Char
  files : List FsPath
  records : List Bool
  deriving DecidableEq, Repr

/-- Embeds the sample construction `single_t(name, *files, delete=False)` of
the `pipeline` result callback (pampi.py lines 87-94): an arity mismatch
between the row and the declared data type raises `TypeError`, and ownership
is disabled. -/
def buildSample (arity : Nat) (r : Row) : Except Exc PSample :=
  if r.files.length = arity then Except.ok ⟨r.name, r.files, r.records, false⟩
  else Except.error Exc.TypeError

/-- Embeds the `try/except` around the sample-list construction in
`pipeline`: `TypeError` or `IndexError` is re-raised as `ValueError`. -/
def pipelineSamples (arity : Nat) (rows : List Row) : Except Exc (List PSample) :=
  match mapExc (buildSample arity) rows with
  | Except.ok ss => Except.ok ss
  | Except.error e =>
    if e = Exc.TypeError ∨ e = Exc.IndexError then Except.error Exc.ValueError
    else Except.error e

/-- One cluster block of a report: a header line followed by member lines. -/
structure Block where
  header : Line
  members : List Line
  deriving DecidableEq, Repr

/-- Well-formedness of a block in the sense of the cd-hit report format:
the header survives stripping and starts with the marker, and every member
line survives stripping, does not start with the marker, and carries an
identifier; the block has at least one member (cd-hit always lists the
reference entry). -/
def GoodBlock (b : Block) : Prop :=
  pyStrip b.header ≠ [] ∧ startsGt (pyStrip b.header) = true ∧
  b.members ≠ [] ∧
  ∀ m ∈ b.members, pyStrip m ≠ [] ∧ startsGt (pyStrip m) = false ∧
    (seqidFirst (pyStrip m)).isSome = true

instance (b : Block) : Decidable (GoodBlock b) := by
  unfold GoodBlock
  infer_instance

/-- The lines of the report text a block list denotes. -/
def renderReport (bs : List Block) : List Line :=
  bs.flatMap (fun b => b.header :: b.members)

/-- The identifiers a block's member lines carry, in member-line order. -/
def blockIds (b : Block) : List Ident :=
  b.members.filterMap (fun m => seqidFirst (pyStrip m))

/-! Helper lemmas. -/

theorem getLast?_app_single : ∀ (l : List α) (a : α), (l ++ [a]).getLast? = some a := by
  intro l a
  rw [List.getLast?_append_cons]
  rfl

theorem fallible_ok_some (kinds : List Exc) (r : Except Exc α) (a : α)
    (h : fallible kinds r = Except.ok (some a)) : r = Except.ok a := by
  cases r with
  | ok b => simp [fallible] at h; rw [h]
  | error e =>
    simp [fallible] at h
    by_cases he : e ∈ kinds <;> simp [he] at h

theorem cdhitRaw_ok (env : PickEnv) (out : FsPath) (pr : FsPath × FsPath)
    (h : cdhitRaw env out = Except.ok pr) : pr = (out, out ++ clstrSuffix) := by
  unfold cdhitRaw at h
  by_cases h1 : env.whichOk = false
  · simp [h1] at h
  · by_cases h2 : env.exitCode ≠ 0
    · simp [h1, h2] at h
    · simp [h1, h2] at h; rw [← h]

theorem writeClusters_mem_write (out : FsPath)
    (s : List (Except Exc (Option (List Ident)))) (e : Ev)
    (h : e ∈ (writeClusters out s).1) : ∃ c, e = Ev.write out c := by
  induction s with
  | nil => simp [writeClusters] at h
  | cons x rest ih =>
    cases x with
    | error er => simp [writeClusters] at h
    | ok o =>
      cases o with
      | none => simp [writeClusters] at h; exact ih h
      | some c =>
        by_cases hc : c.isEmpty
        · simp [writeClusters, hc] at h; exact ih h
        · simp [writeClusters, hc] at h
          rcases h with h | h
          · exact ⟨c, h⟩
          · exact ih h

theorem cdpickBody_remove (env : PickEnv) (input : SampleReads)
    (output : Option FsPath) (oR tempout : FsPath) (d : Bool) (p : FsPath)
    (h : Ev.remove p ∈ (cdpickBody env input output oR tempout d).2) :
    p = tempout ∨ p = tempout ++ clstrSuffix := by
  unfold cdpickBody at h
  split at h
  · simp at h
  · simp at h
  · rename_i seqs clusterfile hc
    have hpr : (seqs, clusterfile) = (tempout, tempout ++ clstrSuffix) :=
      cdhitRaw_ok env tempout _ (fallible_ok_some _ _ _ hc)
    have hs : seqs = tempout := congrArg Prod.fst hpr
    have hcf : clusterfile = tempout ++ clstrSuffix := congrArg Prod.snd hpr
    subst hs; subst hcf
    split at h
    · simp at h
    · split at h
      · rename_i wEvs e hw
        simp only [List.mem_cons] at h
        rcases h with h | h
        · simp at h
        · have hmem : Ev.remove p ∈
              (writeClusters oR (clusterStream d env.clusterLines)).1 := by
            rw [hw]; exact h
          rcases writeClusters_mem_write _ _ _ hmem with ⟨c, hcw⟩
          simp at hcw
      · rename_i wEvs hw
        have hmem1 : ∀ q ∈ wEvs,
            q ∈ (writeClusters oR (clusterStream d env.clusterLines)).1 := by
          intro q hq; rw [hw]; exact hq
        split at h
        · simp only [List.mem_cons] at h
          rcases h with h | h
          · simp at h
          · rcases writeClusters_mem_write _ _ _ (hmem1 _ h) with ⟨c, hcw⟩
            simp at hcw
        · split at h
          · simp only [List.mem_append, List.mem_cons] at h
            rcases h with (h | h) | h | h
            · simp at h
            · rcases writeClusters_mem_write _ _ _ (hmem1 _ h) with ⟨c, hcw⟩
              simp at hcw
            · left; exact Ev.remove.inj h
            · simp at h
          · simp only [List.mem_append, List.mem_cons] at h
            rcases h with (h | h) | h | h | h
            · simp at h
            · rcases writeClusters_mem_write _ _ _ (hmem1 _ h) with ⟨c, hcw⟩
              simp at hcw
            · left; exact Ev.remove.inj h
            · right; exact Ev.remove.inj h
            · simp at h

theorem cdpickBody_okChar (env : PickEnv) (input : SampleReads)
    (output : Option FsPath) (oR tempout : FsPath) (d : Bool)
    (rec : SampleClusters) (evs : List Ev)
    (hb : cdpickBody env input output oR tempout d = (Except.ok rec, evs)) :
    rec = ⟨input.name, oR, output.isNone⟩ ∧
    Ev.remove tempout ∈ evs ∧ Ev.remove (tempout ++ clstrSuffix) ∈ evs := by
  unfold cdpickBody at hb
  split at hb
  · injection hb with h1 h2; simp at h1
  · injection hb with h1 h2; simp at h1
  · rename_i seqs clusterfile hc
    have hpr : (seqs, clusterfile) = (tempout, tempout ++ clstrSuffix) :=
      cdhitRaw_ok env tempout _ (fallible_ok_some _ _ _ hc)
    have hs : seqs = tempout := congrArg Prod.fst hpr
    have hcf : clusterfile = tempout ++ clstrSuffix := congrArg Prod.snd hpr
    subst hs; subst hcf
    split at hb
    · injection hb with h1 h2; simp at h1
    · split at hb
      · injection hb with h1 h2; simp at h1
      · split at hb
        · injection hb with h1 h2; simp at h1
        · split at hb
          · injection hb with h1 h2; simp at h1
          · injection hb with h1 h2
            refine ⟨(Except.ok.inj h1).symm, ?_, ?_⟩ <;> rw [← h2] <;> simp

theorem writeClusters_err (out : FsPath) :
    ∀ s : List (Except Exc (Option (List Ident))),
      (writeClusters out s).2 =
        match collectClusters s with
        | Except.error e => some e
        | Except.ok _ => none := by
  intro s
  induction s with
  | nil => rfl
  | cons x rest ih =>
    cases x with
    | error e => rfl
    | ok o =>
      cases o with
      | none => simp [writeClusters, collectClusters]; exact ih
      | some c =>
        by_cases hc : c.isEmpty
        · simp [writeClusters, collectClusters, hc]; exact ih
        · simp only [writeClusters, collectClusters, hc, Bool.false_eq_true, if_false]
          rw [ih]
          cases collectClusters rest with
          | error e => rfl
          | ok cs => rfl

theorem mapExc_seqid_error (g : List Line) (l : Line) (hl : l ∈ g)
    (hn : seqidFirst l = none) :
    mapExc seqidFirstE g = Except.error Exc.IndexError := by
  induction g with
  | nil => simp at hl
  | cons a rest ih =>
    cases ha : seqidFirst a with
    | none => simp [mapExc, seqidFirstE, ha]
    | some i =>
      rcases List.mem_cons.mp hl with h | h
      · subst h; rw [ha] at hn; cases hn
      · simp [mapExc, seqidFirstE, ha, ih h, Except.map]

theorem mapExc_seqid_error_kind (g : List Line) :
    ∀ e : Exc, mapExc seqidFirstE g = Except.error e → e = Exc.IndexError := by
  induction g with
  | nil => intro e h; simp [mapExc] at h
  | cons a rest ih =>
    intro e h
    cases ha : seqidFirst a with
    | none => simp [mapExc, seqidFirstE, ha] at h; rw [← h]
    | some i =>
      cases hr : mapExc seqidFirstE rest with
      | error er =>
        simp [mapExc, seqidFirstE, ha, hr, Except.map] at h
        rw [← h]; exact ih er hr
      | ok bs => simp [mapExc, seqidFirstE, ha, hr, Except.map] at h

theorem transformClusterE_error_kind (d : Bool) (g : List Line) (e : Exc)
    (h : transformClusterE d g = Except.error e) : e = Exc.IndexError := by
  unfold transformClusterE at h
  cases hm : mapExc seqidFirstE g with
  | error er => rw [hm] at h; exact (Except.error.inj h) ▸ mapExc_seqid_error_kind g er hm
  | ok bs => rw [hm] at h; simp at h

theorem transformClusterE_error_of_bad (d : Bool) (g : List Line) (l : Line)
    (hl : l ∈ g) (hn : seqidFirst l = none) :
    transformClusterE d g = Except.error Exc.IndexError := by
  unfold transformClusterE
  rw [mapExc_seqid_error g l hl hn]

theorem collectClusters_error_of_mem
    (s : List (Except Exc (Option (List Ident))))
    (hk : ∀ r ∈ s, ∀ e, r = Except.error e → e = Exc.IndexError)
    (hx : Except.error Exc.IndexError ∈ s) :
    collectClusters s = Except.error Exc.IndexError := by
  induction s with
  | nil => simp at hx
  | cons x rest ih =>
    have ihh := fun hx2 => ih (fun r hr => hk r (List.mem_cons_of_mem x hr)) hx2
    cases x with
    | error e =>
      have he : e = Exc.IndexError := hk _ (List.mem_cons_self _ _) e rfl
      subst he; rfl
    | ok o =>
      have hx2 : Except.error Exc.IndexError ∈ rest := by
        rcases List.mem_cons.mp hx with h | h
        · cases h
        · exact h
      cases o with
      | none => simp [collectClusters]; exact ihh hx2
      | some c =>
        by_cases hc : c.isEmpty
        · simp [collectClusters, hc]; exact ihh hx2
        · simp [collectClusters, hc, ihh hx2, Except.map]

theorem cdpick_propagates_parse_error (env : PickEnv) (input : SampleReads)
    (output : Option FsPath) (d : Bool)
    (ht : env.tmpdirExists = true) (hw : env.whichOk = true)
    (hx : env.exitCode = 0) (ho : env.openOk = true)
    (hparse : parse_cdhit_clusters d env.clusterLines = Except.error Exc.IndexError) :
    (cdpick env input output d).1 = Except.error Exc.IndexError := by
  have hch : cdhit env env.rand2 =
      Except.ok (some (env.rand2, env.rand2 ++ clstrSuffix)) := by
    simp [cdhit, fallible, cdhitRaw, hw, hx]
  have hwrr : (writeClusters (output.getD env.rand1)
      (clusterStream d env.clusterLines)).2 = some Exc.IndexError := by
    rw [writeClusters_err]
    rw [show collectClusters (clusterStream d env.clusterLines) =
          Except.error Exc.IndexError from hparse]
  have hbody : (cdpickBody env input output (output.getD env.rand1) env.rand2 d).1 =
      Except.error Exc.IndexError := by
    unfold cdpickBody
    rw [hch]
    simp only [ho]
    rcases hwp : writeClusters (output.getD env.rand1)
        (clusterStream d env.clusterLines) with ⟨wEvs, werr⟩
    have hww : werr = some Exc.IndexError := by rw [hwp] at hwrr; exact hwrr
    subst hww
    simp
  show fallible [Exc.RuntimeError, Exc.FileNotFoundError]
      (cdpickRaw env input output d).1 = Except.error Exc.IndexError
  unfold cdpickRaw
  rw [ht]
  simp only [Bool.true_eq_false, if_false]
  rw [hbody]
  simp [fallible]

theorem find?_withFns_none [DecidableEq τ] (maps : List (RMap τ C)) (t : τ) (f0 : C → C)
    (h : maps.find? (fun m => m.inT == t) = none) :
    (maps.map (fun m => (⟨m.inT, m.outT, f0⟩ : RMap τ C))).find?
      (fun m => m.inT == t) = none := by
  rw [List.find?_map]
  have hp : ((fun m : RMap τ C => m.inT == t) ∘
      fun m : RMap τ C => (⟨m.inT, m.outT, f0⟩ : RMap τ C)) =
      (fun m : RMap τ C => m.inT == t) := rfl
  rw [hp, h]
  rfl

theorem find?_withFns_some [DecidableEq τ] (maps : List (RMap τ C)) (t : τ) (f0 : C → C)
    (m0 : RMap τ C) (h : maps.find? (fun m => m.inT == t) = some m0) :
    (maps.map (fun m => (⟨m.inT, m.outT, f0⟩ : RMap τ C))).find?
      (fun m => m.inT == t) = some ⟨m0.inT, m0.outT, f0⟩ := by
  rw [List.find?_map]
  have hp : ((fun m : RMap τ C => m.inT == t) ∘
      fun m : RMap τ C => (⟨m.inT, m.outT, f0⟩ : RMap τ C)) =
      (fun m : RMap τ C => m.inT == t) := rfl
  rw [hp, h]
  rfl

theorem withFns_inTs [DecidableEq τ] (maps : List (RMap τ C)) (f0 : C → C) :
    (maps.map (fun m => (⟨m.inT, m.outT, f0⟩ : RMap τ C))).map (·.inT) =
      maps.map (·.inT) := by
  induction maps with
  | nil => rfl
  | cons m rest ih => simp only [List.map_cons, ih]

theorem splitOnChar_ne_nil (sep : Char) (l : List Char) : splitOnChar sep l ≠ [] := by
  cases l with
  | nil => simp [splitOnChar]
  | cons c rest =>
    unfold splitOnChar
    cases h : splitOnChar sep rest with
    | nil => simp
    | cons g gs => by_cases hc : c = sep <;> simp [hc]

theorem splitOnChar_cons_sep (sep : Char) (rest : List Char) :
    splitOnChar sep (sep :: rest) = [] :: splitOnChar sep rest := by
  cases hr : splitOnChar sep rest with
  | nil => exact absurd hr (splitOnChar_ne_nil sep rest)
  | cons g gs =>
    show (match splitOnChar sep rest with
          | [] => [[]]
          | g2 :: gs2 => if sep = sep then [] :: g2 :: gs2 else (sep :: g2) :: gs2) =
        [] :: g :: gs
    rw [hr]
    simp

theorem splitOnChar_cons_ne (sep c : Char) (rest : List Char) (hc : c ≠ sep)
    (g : List Char) (gs : List (List Char)) (hr : splitOnChar sep rest = g :: gs) :
    splitOnChar sep (c :: rest) = (c :: g) :: gs := by
  show (match splitOnChar sep rest with
        | [] => [[]]
        | g :: gs => if c = sep then [] :: g :: gs else (c :: g) :: gs) = (c :: g) :: gs
  rw [hr]
  simp [hc]

theorem splitOnChar_no_sep (sep : Char) (x : List Char) (h : sep ∉ x) :
    splitOnChar sep x = [x] := by
  induction x with
  | nil => rfl
  | cons c rest ih =>
    have hc : c ≠ sep := fun he => h (he ▸ List.mem_cons_self c rest)
    have hr : sep ∉ rest := fun hm => h (List.mem_cons_of_mem c hm)
    exact splitOnChar_cons_ne sep c rest hc rest [] (ih hr)

theorem splitOnChar_append_sep (sep : Char) (x ys : List Char) (h : sep ∉ x) :
    splitOnChar sep (x ++ sep :: ys) = x :: splitOnChar sep ys := by
  induction x with
  | nil => simpa using splitOnChar_cons_sep sep ys
  | cons c rest ih =>
    have hc : c ≠ sep := fun he => h (he ▸ List.mem_cons_self c rest)
    have hr : sep ∉ rest := fun hm => h (List.mem_cons_of_mem c hm)
    rw [List.cons_append]
    exact splitOnChar_cons_ne sep c _ hc _ _ (ih hr)

theorem splitOnChar_joinSep (sep : Char) (c : List (List Char)) (hne : c ≠ [])
    (h : ∀ i ∈ c, sep ∉ i) : splitOnChar sep (joinSep sep c) = c := by
  induction c with
  | nil => exact absurd rfl hne
  | cons x rest ih =>
    cases rest with
    | nil =>
      exact splitOnChar_no_sep sep x (h x (List.mem_cons_self _ _))
    | cons y rest2 =>
      have hx : sep ∉ x := h x (List.mem_cons_self _ _)
      have hr : ∀ i ∈ y :: rest2, sep ∉ i := fun i hi => h i (List.mem_cons_of_mem x hi)
      show splitOnChar sep (x ++ sep :: joinSep sep (y :: rest2)) = x :: y :: rest2
      rw [splitOnChar_append_sep sep x _ hx, ih (by simp) hr]

theorem nl_not_mem_joinSep (nl sep : Char) (hns : nl ≠ sep) (c : List (List Char))
    (h : ∀ i ∈ c, nl ∉ i) : nl ∉ joinSep sep c := by
  induction c with
  | nil => simp [joinSep]
  | cons x rest ih =>
    cases rest with
    | nil => exact h x (List.mem_cons_self _ _)
    | cons y rest2 =>
      show nl ∉ x ++ sep :: joinSep sep (y :: rest2)
      intro hm
      rcases List.mem_append.mp hm with hm | hm
      · exact h x (List.mem_cons_self _ _) hm
      · rcases List.mem_cons.mp hm with hm | hm
        · exact hns hm
        · exact ih (fun i hi => h i (List.mem_cons_of_mem x hi)) hm

theorem splitNl_render : ∀ (cs : List (List Ident)),
    (∀ c ∈ cs, Char.ofNat 10 ∉ joinSep (Char.ofNat 9) c) →
    splitOnChar (Char.ofNat 10) (renderClustersFile cs) =
      cs.map (joinSep (Char.ofNat 9)) ++ [[]] := by
  intro cs
  induction cs with
  | nil => intro h; rfl
  | cons c rest ih =>
    intro h
    have hl : Char.ofNat 10 ∉ joinSep (Char.ofNat 9) c := h c (List.mem_cons_self _ _)
    have hr := ih (fun q hq => h q (List.mem_cons_of_mem c hq))
    show splitOnChar (Char.ofNat 10)
        ((joinSep (Char.ofNat 9) c ++ [Char.ofNat 10]) ++ renderClustersFile rest) = _
    rw [List.append_assoc, List.singleton_append,
        splitOnChar_append_sep _ _ _ hl, hr]
    rfl

theorem renderClustersFile_cons (c : List Ident) (rest : List (List Ident)) :
    renderClustersFile (c :: rest) =
      (joinSep (Char.ofNat 9) c ++ [Char.ofNat 10]) ++ renderClustersFile rest := rfl

theorem pyGroupBy_cons_eq (key : α → Bool) (x : α) (xs : List α) :
    pyGroupBy key (x :: xs) =
      match pyGroupBy key xs with
      | [] => [(key x, [x])]
      | (k, g) :: t =>
        if key x == k then (key x, x :: g) :: t else (key x, [x]) :: (k, g) :: t := rfl

theorem pyGroupBy_cons_head (key : α → Bool) (x : α) (xs : List α) :
    ∃ g t, pyGroupBy key (x :: xs) = (key x, g) :: t := by
  rw [pyGroupBy_cons_eq]
  cases h : pyGroupBy key xs with
  | nil => exact ⟨[x], [], rfl⟩
  | cons p t =>
    rcases p with ⟨k, g⟩
    by_cases hk : key x == k
    · exact ⟨x :: g, t, by simp [hk]⟩
    · exact ⟨[x], (k, g) :: t, by simp [hk]⟩

theorem pyGroupBy_concat (key : α → Bool) (k : Bool) (g rest : List α)
    (hg : g ≠ []) (hall : ∀ y ∈ g, key y = k)
    (hrest : ∀ r, rest.head? = some r → key r ≠ k) :
    pyGroupBy key (g ++ rest) = (k, g) :: pyGroupBy key rest := by
  induction g with
  | nil => exact absurd rfl hg
  | cons a g2 ih =>
    have hka : key a = k := hall a (List.mem_cons_self _ _)
    cases g2 with
    | nil =>
      simp only [List.singleton_append]
      rw [pyGroupBy_cons_eq]
      cases rest with
      | nil => rw [hka]; rfl
      | cons r rs =>
        rcases pyGroupBy_cons_head key r rs with ⟨g0, t0, hh⟩
        rw [hh]
        have hkr : key r ≠ k := hrest r rfl
        have hne : (key a == key r) = false := by
          rw [hka]
          cases hkk : key r
          · cases k <;> simp_all
          · cases k <;> simp_all
        simp [hne, hka]
        exact Ne.symm hkr
    | cons b g3 =>
      have ih2 := ih (by simp)
        (fun y hy => hall y (List.mem_cons_of_mem a hy))
      rw [List.cons_append, pyGroupBy_cons_eq, ih2]
      have heq : (key a == k) = true := by rw [hka]; simp
      simp [heq, hka]

theorem strippedLines_append (x y : List Line) :
    strippedLines (x ++ y) = strippedLines x ++ strippedLines y := by
  unfold strippedLines
  rw [List.map_append, List.filter_append]

theorem strippedLines_block (b : Block) (hb : GoodBlock b) :
    strippedLines (b.header :: b.members) =
      pyStrip b.header :: b.members.map pyStrip := by
  unfold strippedLines
  rw [List.map_cons]
  apply List.filter_eq_self.mpr
  intro a ha
  have hane : a ≠ [] := by
    rcases List.mem_cons.mp ha with h | h
    · subst h; exact hb.1
    · rcases List.mem_map.mp h with ⟨m, hm, hms⟩
      rw [← hms]
      exact (hb.2.2.2 m hm).1
  simp [hane]

theorem strippedLines_render : ∀ (bs : List Block), (∀ b ∈ bs, GoodBlock b) →
    strippedLines (renderReport bs) =
      bs.flatMap (fun b => pyStrip b.header :: b.members.map pyStrip) := by
  intro bs
  induction bs with
  | nil => intro h; rfl
  | cons b rest ih =>
    intro h
    have hb : GoodBlock b := h b (List.mem_cons_self _ _)
    show strippedLines ((b.header :: b.members) ++ renderReport rest) = _
    rw [strippedLines_append, strippedLines_block b hb,
        ih (fun q hq => h q (List.mem_cons_of_mem b hq))]
    rfl

theorem pyGroupBy_blocks : ∀ (bs : List Block), (∀ b ∈ bs, GoodBlock b) →
    pyGroupBy startsGt (strippedLines (renderReport bs)) =
      bs.flatMap (fun b =>
        [(true, [pyStrip b.header]), (false, b.members.map pyStrip)]) := by
  intro bs
  induction bs with
  | nil => intro h; rfl
  | cons b rest ih =>
    intro h
    have hb : GoodBlock b := h b (List.mem_cons_self _ _)
    have hrest : ∀ q ∈ rest, GoodBlock q := fun q hq => h q (List.mem_cons_of_mem b hq)
    rw [strippedLines_render (b :: rest) h]
    show pyGroupBy startsGt
        ((pyStrip b.header :: b.members.map pyStrip) ++
          rest.flatMap (fun q => pyStrip q.header :: q.members.map pyStrip)) = _
    have hsm : b.members.map pyStrip ≠ [] := by
      intro hx
      exact hb.2.2.1 (List.map_eq_nil_iff.mp hx)
    have step1 : pyGroupBy startsGt
        ((pyStrip b.header :: b.members.map pyStrip) ++
          rest.flatMap (fun q => pyStrip q.header :: q.members.map pyStrip)) =
        (true, [pyStrip b.header]) ::
          pyGroupBy startsGt
            (b.members.map pyStrip ++
              rest.flatMap (fun q => pyStrip q.header :: q.members.map pyStrip)) := by
      have hcc := pyGroupBy_concat startsGt true [pyStrip b.header]
        (b.members.map pyStrip ++
          rest.flatMap (fun q => pyStrip q.header :: q.members.map pyStrip))
        (by simp)
        (by intro y hy; rcases List.mem_singleton.mp hy with h2; rw [h2]; exact hb.2.1)
        ?hr
      · simpa using hcc
      case hr =>
        intro r hr2
        cases hsm2 : b.members.map pyStrip with
        | nil => exact absurd hsm2 hsm
        | cons m0 ms =>
          rw [hsm2] at hr2
          simp at hr2
          rcases List.mem_map.mp (hsm2 ▸ List.mem_cons_self m0 ms) with ⟨m, hm, hmm⟩
          rw [← hr2, ← hmm]
          rw [(hb.2.2.2 m hm).2.1]
          simp
    have step2 : pyGroupBy startsGt
        (b.members.map pyStrip ++
          rest.flatMap (fun q => pyStrip q.header :: q.members.map pyStrip)) =
        (false, b.members.map pyStrip) ::
          pyGroupBy startsGt
            (rest.flatMap (fun q => pyStrip q.header :: q.members.map pyStrip)) := by
      apply pyGroupBy_concat startsGt false (b.members.map pyStrip) _ hsm
      · intro y hy
        rcases List.mem_map.mp hy with ⟨m, hm, hmm⟩
        rw [← hmm]
        exact (hb.2.2.2 m hm).2.1
      · intro r hr2
        cases rest with
        | nil => simp at hr2
        | cons b2 rest2 =>
          have hb2 : GoodBlock b2 := hrest b2 (List.mem_cons_self _ _)
          simp only [List.flatMap_cons, List.cons_append, List.head?_cons] at hr2
          rw [← Option.some.inj hr2, hb2.2.1]
          simp
    rw [step1, step2]
    have ihr := ih hrest
    rw [strippedLines_render rest hrest] at ihr
    rw [ihr]
    rfl

theorem memberGroups_render (bs : List Block) (h : ∀ b ∈ bs, GoodBlock b) :
    memberGroups (renderReport bs) = bs.map (fun b => b.members.map pyStrip) := by
  unfold memberGroups
  rw [pyGroupBy_blocks bs h]
  induction bs with
  | nil => rfl
  | cons b rest ih =>
    simp only [List.flatMap_cons, List.map_cons]
    rw [← ih (fun q hq => h q (List.mem_cons_of_mem b hq))]
    rfl

theorem mapExc_members (ms : List Line)
    (h : ∀ m ∈ ms, (seqidFirst (pyStrip m)).isSome = true) :
    mapExc seqidFirstE (ms.map pyStrip) =
      Except.ok (ms.filterMap (fun m => seqidFirst (pyStrip m))) ∧
    (ms.filterMap (fun m => seqidFirst (pyStrip m))).length = ms.length := by
  induction ms with
  | nil => exact ⟨rfl, rfl⟩
  | cons m rest ih =>
    have hm := h m (List.mem_cons_self _ _)
    rcases Option.isSome_iff_exists.mp hm with ⟨i, hi⟩
    rcases ih (fun q hq => h q (List.mem_cons_of_mem m hq)) with ⟨ih1, ih2⟩
    constructor
    · simp only [List.map_cons, mapExc, seqidFirstE, hi, ih1, Except.map]
      rw [List.filterMap_cons, hi]
    · simp only [List.filterMap_cons, hi, List.length_cons, ih2]

theorem collectClusters_cons_some (c : List Ident)
    (r : List (Except Exc (Option (List Ident)))) :
    collectClusters (Except.ok (some c) :: r) =
      if c.isEmpty then collectClusters r
      else (collectClusters r).map (c :: ·) := rfl

theorem collectClusters_cons_none (r : List (Except Exc (Option (List Ident)))) :
    collectClusters (Except.ok none :: r) = collectClusters r := rfl

/-! Claim theorems. -/

/-- The spec's example report: every line begins with the marker. -/
def specExampleLines : List Line :=
  [">ref...".toList, ">seqA...".toList, ">seqB...".toList, ">ref2...".toList]

/-- The clusters the spec claims for the example with drop_empty unset. -/
def specClaimedFull : List (List Ident) :=
  [["ref".toList, "seqA".toList, "seqB".toList], ["ref2".toList]]

/-- The clusters the spec claims for the example with drop_empty set. -/
def specClaimedDropped : List (List Ident) :=
  [["ref".toList, "seqA".toList, "seqB".toList]]

/-- Claim C1, counterexample: on the spec's literal example input every line
starts with the marker, so `groupby(startswith('>'))` puts all lines into one
header group, which the member filter discards; parsing yields no clusters at
all under either `drop_empty` setting, not the claimed cluster lists. -/
theorem C1_spec_example_refuted :
    parse_cdhit_clusters false specExampleLines = Except.ok [] ∧
    parse_cdhit_clusters true specExampleLines = Except.ok [] ∧
    ¬ parse_cdhit_clusters false specExampleLines = Except.ok specClaimedFull ∧
    ¬ parse_cdhit_clusters true specExampleLines = Except.ok specClaimedDropped := by
  refine ⟨rfl, rfl, ?_, ?_⟩ <;> decide

/-- A report in the shape cd-hit actually emits: header lines begin each
block and member lines carry the identifiers between the markers. -/
def wellformedExampleLines : List Line :=
  [">Cluster 0".toList, "0 151nt, >ref... *".toList, "1 >seqA... at".toList,
   "2 >seqB... at".toList, ">Cluster 1".toList, "0 >ref2... *".toList]

/-- Claim C1, amended: parsing a report whose blocks are introduced by header
lines and whose member lines carry the `>id...` markers yields exactly the
clusters the spec describes, with the reference-only second block dropped
when `drop_empty` is set. -/
theorem C1_amended_wellformed_report :
    parse_cdhit_clusters false wellformedExampleLines = Except.ok specClaimedFull ∧
    parse_cdhit_clusters true wellformedExampleLines = Except.ok specClaimedDropped :=
  ⟨rfl, rfl⟩

/-- An environment in which every step of a clustering invocation succeeds. -/
def goodPickEnv : PickEnv :=
  ⟨true, true, 0, [">Cluster 0".toList, "0 >a... *".toList], true, true, true,
   "/tmp/rnd1".toList, "/tmp/rnd2".toList⟩

/-- The same environment except that cd-hit exits with a non-zero status. -/
def failPickEnv : PickEnv :=
  ⟨true, true, 1, [">Cluster 0".toList, "0 >a... *".toList], true, true, true,
   "/tmp/rnd1".toList, "/tmp/rnd2".toList⟩

/-- Claim C2 (code bug): in a batch of two samples where only the second
sample's cd-hit invocation exits non-zero, the batch does not yield one
record and one absent result — it aborts with a `TypeError`.  The tool
failure raises `RuntimeError` inside `cdhit`, but `cdhit`'s own
`fallible(RuntimeError, CalledProcessError)` wrapper swallows it and returns
`None`; `cdpick` then unpacks the `None` into `seqs, clusterfile`, raising
`TypeError`, which is not among `cdpick`'s caught kinds
`(RuntimeError, FileNotFoundError)` and so escapes the batch. -/
theorem C2_tool_failure_aborts_batch :
    cdpick_multiple [(goodPickEnv, ⟨"s1".toList, ["/d/a.fa".toList]⟩),
                     (failPickEnv, ⟨"s2".toList, ["/d/b.fa".toList]⟩)] false =
      Except.error Exc.TypeError ∧
    (cdpick failPickEnv ⟨"s2".toList, ["/d/b.fa".toList]⟩ none false).1 =
      Except.error Exc.TypeError ∧
    ¬ Exc.TypeError ∈ [Exc.RuntimeError, Exc.FileNotFoundError] := by
  refine ⟨rfl, rfl, ?_⟩
  decide

/-- Claim C3: for every well-formed cluster report (each block a header line
beginning with the marker followed by at least one member line carrying an
identifier), `parse_cdhit_clusters` returns one identifier list per block,
blocks in report order and identifiers in member-line order; with
`drop_empty` set, exactly the blocks with member count 1 are discarded, and
with it unset every block's full list is kept. -/
theorem C3_parse_wellformed_report :
    ∀ (bs : List Block) (d : Bool), (∀ b ∈ bs, GoodBlock b) →
    parse_cdhit_clusters d (renderReport bs) =
      Except.ok ((if d then bs.filter (fun b => decide (b.members.length ≠ 1))
                  else bs).map blockIds) := by
  intro bs d h
  unfold parse_cdhit_clusters clusterStream
  rw [memberGroups_render bs h, List.map_map]
  induction bs with
  | nil => cases d <;> rfl
  | cons b rest ih =>
    have hb : GoodBlock b := h b (List.mem_cons_self _ _)
    have hrest : ∀ q ∈ rest, GoodBlock q := fun q hq => h q (List.mem_cons_of_mem b hq)
    have ihr := ih hrest
    rcases mapExc_members b.members (fun m hm => (hb.2.2.2 m hm).2.2) with ⟨hmE, hlen⟩
    have htc : transformClusterE d (b.members.map pyStrip) =
        Except.ok (if d then (if (blockIds b).length > 1 then some (blockIds b) else none)
                   else some (blockIds b)) := by
      unfold transformClusterE
      rw [hmE]
      rfl
    have hmne : b.members.length ≥ 1 := by
      cases hmm : b.members with
      | nil => exact absurd hmm hb.2.2.1
      | cons x xs => simp [hmm]
    have hlen2 : (blockIds b).length = b.members.length := hlen
    have hidne : (blockIds b).isEmpty = false := by
      rw [List.isEmpty_eq_false]
      intro hx
      rw [hx] at hlen2
      simp at hlen2
      omega
    simp only [List.map_cons, Function.comp]
    rw [htc]
    cases d with
    | false =>
      simp only [if_false, Bool.false_eq_true]
      rw [collectClusters_cons_some, hidne]
      simp only [Bool.false_eq_true, if_false]
      rw [ihr]
      simp only [Bool.false_eq_true, if_false, List.map_cons, Except.map]
    | true =>
      simp only [if_true]
      by_cases hone : b.members.length = 1
      · have hid1 : ¬ (blockIds b).length > 1 := by omega
        rw [if_neg hid1, collectClusters_cons_none, ihr]
        have hf : (decide (b.members.length ≠ 1)) = false := by simp [hone]
        simp only [if_true, List.filter_cons, hf, Bool.false_eq_true, if_false]
      · have hid1 : (blockIds b).length > 1 := by omega
        rw [if_pos hid1, collectClusters_cons_some, hidne]
        simp only [Bool.false_eq_true, if_false]
        rw [ihr]
        have hf : (decide (b.members.length ≠ 1)) = true := by simp [hone]
        simp only [if_true, List.filter_cons, hf, List.map_cons, Except.map]

/-- A concrete well-formed two-block report for the C3 witness. -/
def wfBlocks : List Block :=
  [⟨">Cluster 0".toList, ["0 >a... *".toList, "1 >b... at".toList]⟩,
   ⟨">Cluster 1".toList, ["0 >c... *".toList]⟩]

/-- Witness for claim C3 at a concrete well-formed two-block report with
`drop_empty` set. -/
theorem C3_parse_wellformed_report_witness :
    parse_cdhit_clusters true (renderReport wfBlocks) =
      Except.ok ((if true then wfBlocks.filter (fun b => decide (b.members.length ≠ 1))
                  else wfBlocks).map blockIds) :=
  C3_parse_wellformed_report wfBlocks true (by decide)

/-- Claim C4: on every exit of `cdpick` a caller-specified output path
distinct from the pipeline-private temporaries is never removed, and on
every successful invocation both temporary cd-hit artifacts (the raw output
sequences file `cdhit_tempout` and its `.clstr` report) are removed and the
returned record owns its output file exactly when no output path was
supplied. -/
theorem C4_cleanup_and_ownership :
    ∀ (env : PickEnv) (input : SampleReads) (output : Option FsPath) (d : Bool),
    (∀ p, output = some p → p ≠ env.rand2 → p ≠ env.rand2 ++ clstrSuffix →
      Ev.remove p ∉ (cdpick env input output d).2) ∧
    (∀ rec, (cdpick env input output d).1 = Except.ok (some rec) →
      Ev.remove env.rand2 ∈ (cdpick env input output d).2 ∧
      Ev.remove (env.rand2 ++ clstrSuffix) ∈ (cdpick env input output d).2 ∧
      rec.delete = output.isNone) := by
  intro env input output d
  constructor
  · intro p hp hne1 hne2 hmem
    have htr : (cdpick env input output d).2 = (cdpickRaw env input output d).2 := rfl
    rw [htr] at hmem
    unfold cdpickRaw at hmem
    cases ht : env.tmpdirExists with
    | false => rw [ht] at hmem; simp at hmem
    | true =>
      rw [ht] at hmem
      simp only [Bool.true_eq_false, if_false, List.mem_cons, List.mem_append] at hmem
      rcases hmem with h | h | h
      · simp at h
      · rcases cdpickBody_remove env input output (output.getD env.rand1) env.rand2 d p h
          with h1 | h1
        · exact hne1 h1
        · exact hne2 h1
      · simp at h
  · intro rec hok
    have h1 : (cdpickRaw env input output d).1 = Except.ok rec :=
      fallible_ok_some _ _ _ hok
    unfold cdpickRaw at h1
    cases ht : env.tmpdirExists with
    | false => rw [ht] at h1; simp at h1
    | true =>
      rw [ht] at h1
      simp only [Bool.true_eq_false, if_false] at h1
      rcases hb : cdpickBody env input output (output.getD env.rand1) env.rand2 d
        with ⟨r, evs⟩
      rw [hb] at h1
      simp only at h1
      rw [h1] at hb
      rcases cdpickBody_okChar env input output (output.getD env.rand1) env.rand2 d rec
        evs hb with ⟨hrec, hm1, hm2⟩
      have htr : (cdpick env input output d).2 =
          Ev.acquire input.name :: (evs ++ [Ev.release input.name]) := by
        show (cdpickRaw env input output d).2 = _
        unfold cdpickRaw
        rw [ht]
        simp only [Bool.true_eq_false, if_false]
        rw [hb]
      rw [htr]
      refine ⟨?_, ?_, ?_⟩
      · simp only [List.mem_cons, List.mem_append]; right; left; exact hm1
      · simp only [List.mem_cons, List.mem_append]; right; left; exact hm2
      · rw [hrec]

/-- The record a successful caller-specified-output invocation returns in the
C4 witness configuration. -/
def c4Record : SampleClusters := ⟨"s1".toList, "/out/x".toList, false⟩

/-- Witness for claim C4: with a caller-specified output path the path is not
removed, both temporaries are removed, and the returned record does not own
its output. -/
theorem C4_cleanup_and_ownership_witness :
    Ev.remove ("/out/x".toList) ∉
      (cdpick goodPickEnv ⟨"s1".toList, ["/d/a.fa".toList]⟩
        (some ("/out/x".toList)) false).2 ∧
    Ev.remove goodPickEnv.rand2 ∈
      (cdpick goodPickEnv ⟨"s1".toList, ["/d/a.fa".toList]⟩
        (some ("/out/x".toList)) false).2 ∧
    Ev.remove (goodPickEnv.rand2 ++ clstrSuffix) ∈
      (cdpick goodPickEnv ⟨"s1".toList, ["/d/a.fa".toList]⟩
        (some ("/out/x".toList)) false).2 ∧
    c4Record.delete = (some ("/out/x".toList)).isNone :=
  ⟨(C4_cleanup_and_ownership goodPickEnv ⟨"s1".toList, ["/d/a.fa".toList]⟩
      (some ("/out/x".toList)) false).1 ("/out/x".toList) rfl (by decide) (by decide),
   (C4_cleanup_and_ownership goodPickEnv ⟨"s1".toList, ["/d/a.fa".toList]⟩
      (some ("/out/x".toList)) false).2 c4Record rfl⟩

/-- Claim C5: the input sample is scope-acquired by `cdpick`: whenever the
call gets past the `tmpdir` check, its event trace begins with the
acquisition of the input and ends with its release — on every exit path,
error results included; the only trace without an acquisition is the
`ValueError` exit before the `with` block is entered. -/
theorem C5_scoped_acquisition :
    ∀ (env : PickEnv) (input : SampleReads) (output : Option FsPath) (d : Bool),
    (env.tmpdirExists = false → (cdpick env input output d).2 = []) ∧
    (env.tmpdirExists = true →
      ((cdpick env input output d).2).head? = some (Ev.acquire input.name) ∧
      ((cdpick env input output d).2).getLast? = some (Ev.release input.name)) := by
  intro env input output d
  constructor
  · intro h; simp [cdpick, cdpickRaw, h]
  · intro h
    have e1 : (cdpick env input output d).2 =
        Ev.acquire input.name ::
          ((cdpickBody env input output (output.getD env.rand1) env.rand2 d).2 ++
            [Ev.release input.name]) := by
      simp [cdpick, cdpickRaw, h]
    refine ⟨?_, ?_⟩
    · rw [e1]; rfl
    · rw [e1, ← List.cons_append, getLast?_app_single]

/-- Witness for claim C5 on an environment in which the tool fails (an
exceptional exit path): the trace still opens with the acquisition and
closes with the release. -/
theorem C5_scoped_acquisition_witness :
    ((cdpick failPickEnv ⟨"s2".toList, ["/d/b.fa".toList]⟩ none false).2).head? =
      some (Ev.acquire ("s2".toList)) ∧
    ((cdpick failPickEnv ⟨"s2".toList, ["/d/b.fa".toList]⟩ none false).2).getLast? =
      some (Ev.release ("s2".toList)) :=
  (C5_scoped_acquisition failPickEnv ⟨"s2".toList, ["/d/b.fa".toList]⟩ none false).2 rfl

/-- Claim C10: a member line with no identifier between the markers makes
`transform_cluster` raise `IndexError` (the whole parse yields that error
rather than skipping the line), `IndexError` is not among the kinds
`cdpick`'s error-capture wrapper absorbs, and `cdpick` therefore propagates
the error to its caller instead of returning an absent result. -/
theorem C10_index_error_propagates :
    (∀ (d : Bool) (lines : List Line) (g : List Line) (l : Line),
      g ∈ memberGroups lines → l ∈ g → seqidFirst l = none →
      parse_cdhit_clusters d lines = Except.error Exc.IndexError) ∧
    ¬ Exc.IndexError ∈ [Exc.RuntimeError, Exc.FileNotFoundError] ∧
    (∀ (env : PickEnv) (input : SampleReads) (output : Option FsPath) (d : Bool),
      env.tmpdirExists = true → env.whichOk = true → env.exitCode = 0 →
      env.openOk = true →
      parse_cdhit_clusters d env.clusterLines = Except.error Exc.IndexError →
      (cdpick env input output d).1 = Except.error Exc.IndexError) := by
  refine ⟨?_, by decide, ?_⟩
  · intro d lines g l hg hl hn
    unfold parse_cdhit_clusters
    apply collectClusters_error_of_mem
    · intro r hr e hre
      rcases List.mem_map.mp hr with ⟨g2, hg2, hrg⟩
      subst hre
      exact transformClusterE_error_kind d g2 e hrg
    · rw [← transformClusterE_error_of_bad d g l hl hn]
      exact List.mem_map_of_mem (transformClusterE d) hg
  · intro env input output d ht hw hx ho hparse
    exact cdpick_propagates_parse_error env input output d ht hw hx ho hparse

/-- A report whose single member line carries no identifier marker. -/
def badReportLines : List Line := [">C0".toList, "0 bad".toList]

/-- The C10 environment: every external step succeeds but the report contains
a marker-less member line. -/
def badReportEnv : PickEnv :=
  ⟨true, true, 0, badReportLines, true, true, true,
   "/tmp/rnd1".toList, "/tmp/rnd2".toList⟩

/-- Witness for claim C10: the concrete marker-less member line makes the
parse raise `IndexError` and `cdpick` propagates it. -/
theorem C10_index_error_propagates_witness :
    parse_cdhit_clusters false badReportLines = Except.error Exc.IndexError ∧
    (cdpick badReportEnv ⟨"s1".toList, ["/d/a.fa".toList]⟩ none false).1 =
      Except.error Exc.IndexError :=
  ⟨C10_index_error_propagates.1 false badReportLines ["0 bad".toList]
     ("0 bad".toList) (by decide) (by decide) (by decide),
   C10_index_error_propagates.2.2 badReportEnv ⟨"s1".toList, ["/d/a.fa".toList]⟩
     none false rfl rfl rfl rfl rfl⟩

/-- Claim C6: if the walk of declared types reaches stage `i` (every earlier
stage matched) and stage `i` has no alternative whose declared input type
equals the carried type, then `pcompile` fails with a `TypeMismatch` naming
that first incompatible stage, the carried type and the stage's accepted
types; and the same error results whatever transformation functions the
stages carry — so no transformation function is invoked before the failure
(assembly is fully separated from execution). -/
theorem C6_compile_type_mismatch :
    ∀ (C : Type) (rs : List (Router RepType C)) (t : RepType) (i : Nat)
      (r : Router RepType C) (ti : RepType),
    carriedAt rs t i = some ti →
    rs[i]? = some r →
    r.maps.find? (fun m => m.inT == ti) = none →
    pcompile rs t =
      Except.error (PError.typeMismatch r.name ti (r.maps.map (·.inT))) ∧
    ∀ f0 : C → C, pcompile (rs.map (withFns f0)) t =
      Except.error (PError.typeMismatch r.name ti (r.maps.map (·.inT))) := by
  intro C rs t i
  induction i generalizing rs t with
  | zero =>
    intro r ti hc hg hf
    cases rs with
    | nil => simp at hg
    | cons r0 rest =>
      have hti : ti = t := by
        simp only [carriedAt] at hc
        exact (Option.some.inj hc).symm
      have hr : r0 = r := by simpa using hg
      rw [← hr, hti] at hf
      rw [← hr, hti]
      constructor
      · unfold pcompile
        rw [hf]
      · intro f0
        simp only [List.map_cons]
        unfold pcompile
        simp only [withFns]
        rw [find?_withFns_none r0.maps t f0 hf, withFns_inTs]
  | succ i ih =>
    intro r ti hc hg hf
    cases rs with
    | nil => simp at hg
    | cons r0 rest =>
      unfold carriedAt at hc
      cases hm : r0.maps.find? (fun m => m.inT == t) with
      | none => rw [hm] at hc; cases hc
      | some m =>
        rw [hm] at hc
        have hc2 : carriedAt rest m.outT i = some ti := hc
        have hg2 : rest[i]? = some r := by simpa using hg
        rcases ih rest m.outT r ti hc2 hg2 hf with ⟨ha, hb⟩
        constructor
        · unfold pcompile
          rw [hm]
          show Except.map (fun p => (p.1, p.2 ∘ m.fn)) (pcompile rest m.outT) =
            Except.error (PError.typeMismatch r.name ti (r.maps.map (·.inT)))
          rw [ha]
          rfl
        · intro f0
          simp only [List.map_cons]
          unfold pcompile
          simp only [withFns]
          rw [find?_withFns_some r0.maps t f0 m hm]
          show Except.map (fun p => (p.1, p.2 ∘ f0))
              (pcompile (rest.map (withFns f0)) m.outT) =
            Except.error (PError.typeMismatch r.name ti (r.maps.map (·.inT)))
          rw [hb f0]
          rfl

/-- The picker stage of the C6 witness chain, specialized to one alternative. -/
def pickerStage : Router RepType Nat :=
  ⟨"picker".toList, [⟨RepType.multipleFasta, RepType.multipleClusters, id⟩]⟩

/-- The trimmer stage of the C6 witness chain: accepts only paired FASTQ. -/
def trimmerStage : Router RepType Nat :=
  ⟨"trimmer".toList, [⟨RepType.multiplePairedFastq, RepType.multiplePairedFastq, id⟩]⟩

/-- Witness for claim C6: a chain whose second stage cannot accept the
clusters produced by the first fails with a `TypeMismatch` naming the
second stage. -/
theorem C6_compile_type_mismatch_witness :
    pcompile [pickerStage, trimmerStage] RepType.multipleFasta =
      Except.error (PError.typeMismatch ("trimmer".toList) RepType.multipleClusters
        [RepType.multiplePairedFastq]) :=
  (C6_compile_type_mismatch Nat [pickerStage, trimmerStage] RepType.multipleFasta 1
    trimmerStage RepType.multipleClusters rfl rfl rfl).1

/-- Claim C7: for every cluster list whose clusters are non-empty and whose
identifiers contain no tab and no newline, writing the tab-separated
cluster-membership file and re-parsing it line by line reproduces exactly
the written identifier lists. -/
theorem C7_format_roundtrip :
    ∀ (cs : List (List Ident)),
    (∀ c ∈ cs, c ≠ [] ∧ ∀ i ∈ c, Char.ofNat 9 ∉ i ∧ Char.ofNat 10 ∉ i) →
    parseClustersFile (renderClustersFile cs) = cs := by
  intro cs h
  have hlines : ∀ c ∈ cs, Char.ofNat 10 ∉ joinSep (Char.ofNat 9) c := by
    intro c hc
    exact nl_not_mem_joinSep (Char.ofNat 10) (Char.ofNat 9) (by decide) c
      (fun i hi => ((h c hc).2 i hi).2)
  unfold parseClustersFile
  cases cs with
  | nil => rfl
  | cons c rest =>
    have hsplit := splitNl_render (c :: rest) hlines
    have hne : (renderClustersFile (c :: rest)).isEmpty = false := by
      rw [renderClustersFile_cons]
      cases hj : joinSep (Char.ofNat 9) c <;> rfl
    unfold pySplitlines
    rw [hne, hsplit]
    simp only [Bool.false_eq_true, if_false]
    rw [getLast?_app_single]
    simp only [if_true, List.dropLast_concat, reduceIte]
    rw [List.map_map]
    have hmap : ∀ cs2 : List (List Ident),
        (∀ c2 ∈ cs2, c2 ≠ [] ∧ ∀ i ∈ c2, Char.ofNat 9 ∉ i ∧ Char.ofNat 10 ∉ i) →
        cs2.map (splitOnChar (Char.ofNat 9) ∘ joinSep (Char.ofNat 9)) = cs2 := by
      intro cs2
      induction cs2 with
      | nil => intro h2; rfl
      | cons c2 rest2 ih2 =>
        intro h2
        have hc2 := h2 c2 (List.mem_cons_self _ _)
        simp only [List.map_cons, Function.comp]
        rw [splitOnChar_joinSep _ _ hc2.1 (fun i hi => (hc2.2 i hi).1),
            ih2 (fun q hq => h2 q (List.mem_cons_of_mem c2 hq))]
    exact hmap (c :: rest) h

/-- The cluster list of the C7 witness. -/
def roundtripClusters : List (List Ident) :=
  [["ref".toList, "seqA".toList, "seqB".toList], ["ref2".toList]]

/-- Witness for claim C7 at a concrete two-cluster list. -/
theorem C7_format_roundtrip_witness :
    parseClustersFile (renderClustersFile roundtripClusters) = roundtripClusters :=
  C7_format_roundtrip roundtripClusters (by decide)

/-- A sample with no sequences that owns its backing file. -/
def emptySampleOwned : PSample := ⟨"s0".toList, ["/data/s0.fq".toList], [], true⟩

/-- A sample with three truthy records. -/
def threeSeqSample : PSample :=
  ⟨"s3".toList, ["/data/s3.fq".toList], [true, true, true], false⟩

/-- A sample with five truthy records. -/
def fiveSeqSample : PSample :=
  ⟨"s5".toList, ["/data/s5.fq".toList], [true, true, true, true, true], false⟩

/-- Claim C8: the filter stage keeps exactly the samples whose truthy-record
count reaches `nseq`, in their original relative order, and releases every
dropped sample (deleting its files when it owns them), the releases ordered
by traversal; in particular with counts 0, 3, 5 and `nseq = 3` exactly the
count-3 and count-5 samples survive and the owned count-0 sample's file is
deleted. -/
theorem C8_filter_keeps_and_releases :
    (∀ (nseq : Nat) (samples : List PSample),
      (size_filt nseq samples).1 =
        samples.filter (fun s => decide (nseq ≤ truthyCount s)) ∧
      (size_filt nseq samples).2 =
        (samples.filter (fun s => decide (truthyCount s < nseq))).flatMap releaseEvs) ∧
    (size_filt 3 [emptySampleOwned, threeSeqSample, fiveSeqSample]).1 =
      [threeSeqSample, fiveSeqSample] ∧
    (size_filt 3 [emptySampleOwned, threeSeqSample, fiveSeqSample]).2 =
      [Ev.remove ("/data/s0.fq".toList)] := by
  refine ⟨?_, rfl, rfl⟩
  intro nseq samples
  induction samples with
  | nil => simp [size_filt]
  | cons s rest ih =>
    by_cases h : nseq ≤ truthyCount s
    · simp [size_filt, h, ih.1, ih.2, Nat.not_lt.mpr h]
    · simp [size_filt, h, ih.1, ih.2, Nat.lt_of_not_le h]

theorem mapExc_buildSample_owns : ∀ (arity : Nat) (rows : List Row) (ss : List PSample),
    mapExc (buildSample arity) rows = Except.ok ss →
    ∀ s ∈ ss, s.owns = false := by
  intro arity rows
  induction rows with
  | nil =>
    intro ss h s hs
    simp [mapExc] at h
    subst h; simp at hs
  | cons r rest ih =>
    intro ss h s hs
    cases hb : buildSample arity r with
    | error e => simp [mapExc, hb] at h
    | ok s0 =>
      cases hr : mapExc (buildSample arity) rest with
      | error e => simp [mapExc, hb, hr, Except.map] at h
      | ok ss2 =>
        simp [mapExc, hb, hr, Except.map] at h
        subst h
        rcases List.mem_cons.mp hs with h1 | h1
        · subst h1
          unfold buildSample at hb
          by_cases ha : r.files.length = arity
          · simp [ha] at hb; rw [← hb]
          · simp [ha] at hb
        · exact ih ss2 hr s h1

/-- Claim C9: every sample the pipeline entry point builds from an input row
is constructed with `delete=False` (ownership disabled), so releasing it
later deletes nothing. -/
theorem C9_pipeline_samples_not_owned :
    ∀ (arity : Nat) (rows : List Row) (ss : List PSample),
    pipelineSamples arity rows = Except.ok ss →
    ∀ s ∈ ss, s.owns = false ∧ releaseEvs s = [] := by
  intro arity rows ss h s hs
  have hmap : mapExc (buildSample arity) rows = Except.ok ss := by
    unfold pipelineSamples at h
    cases hm : mapExc (buildSample arity) rows with
    | ok ss2 =>
      rw [hm] at h
      exact h
    | error e =>
      rw [hm] at h
      by_cases he : e = Exc.TypeError ∨ e = Exc.IndexError <;> simp [he] at h
  have howns : s.owns = false := mapExc_buildSample_owns arity rows ss hmap s hs
  refine ⟨howns, ?_⟩
  unfold releaseEvs
  rw [howns]
  rfl

/-- An input-table row with one existing file. -/
def inputRow : Row := ⟨"a".toList, ["/x.fq".toList], [true]⟩

/-- The sample `pipelineSamples` builds from `inputRow`. -/
def inputRowSample : PSample := ⟨"a".toList, ["/x.fq".toList], [true], false⟩

/-- Witness for claim C9 at a concrete one-row input table. -/
theorem C9_pipeline_samples_not_owned_witness :
    inputRowSample.owns = false ∧ releaseEvs inputRowSample = [] :=
  C9_pipeline_samples_not_owned 1 [inputRow] [inputRowSample] rfl inputRowSample
    (by decide)
